import Mathlib

/-!
# Routine builder (`script.js`): filter engine, selection store, conversation log

A shallow embedding of the state-handling code of `script.js`.

* JavaScript strings are lists of characters (code points; on well-formed strings the
  substring relation is the same as on UTF-16 code units); `String.prototype.includes`
  is the infix relation on those lists, `String.prototype.trim` strips the ECMAScript
  white-space and line-terminator characters from both ends, and
  `String.prototype.toLowerCase` is a parameter of the functions that call it.
* Product ids are integers (the data model of the catalog); the model is exact on
  the safe-integer range of JavaScript numbers.
* `localStorage` is reduced to the one key the script uses, `"selectedProductIds"`.
* Each event handler is one atomic state transformer; the outcome of a `fetch`
  is an input of the handler that awaits it.
-/

namespace RoutineBuilder

/-! ## Strings -/

/-- A JavaScript string, as the list of its characters. -/
abbrev JSString := List Char

/-- Code points removed by `String.prototype.trim`: ECMAScript `WhiteSpace`
(TAB, VT, FF, SP, NBSP, ZWNBSP and the category Zs) and `LineTerminator`. -/
def whiteSpaceCodes : List Nat :=
  [0x09, 0x0A, 0x0B, 0x0C, 0x0D, 0x20, 0xA0, 0x1680,
   0x2000, 0x2001, 0x2002, 0x2003, 0x2004, 0x2005, 0x2006, 0x2007, 0x2008, 0x2009, 0x200A,
   0x2028, 0x2029, 0x202F, 0x205F, 0x3000, 0xFEFF]

/-- Whether `trim` strips the character. -/
def isWhiteSpace (c : Char) : Bool := decide (c.toNat ∈ whiteSpaceCodes)

/-- `s.trim()`. -/
def trim (s : JSString) : JSString :=
  ((s.dropWhile isWhiteSpace).reverse.dropWhile isWhiteSpace).reverse

/-- `s.includes(q)`: `q` occurs in `s` as a contiguous substring. -/
def includes (s q : JSString) : Bool := decide (q <:+: s)

/-- Truthiness of a string value: only the empty string is falsy. -/
def truthy (s : JSString) : Bool := !s.isEmpty

/-! ## Data model -/

/-- A catalog record of `products.json`. -/
structure Product where
  id : Int
  name : JSString
  brand : JSString
  category : JSString
  description : JSString
  image : JSString
deriving DecidableEq, Repr

/-- One rendered `.product-card`: the product and whether it carries the class `selected`. -/
structure Card where
  product : Product
  isSelected : Bool
deriving DecidableEq, Repr

/-- Content of `#productsContainer`. -/
inductive Container where
  /-- "Select a category to view products" (set when the script starts). -/
  | initialPlaceholder
  /-- "Select a category or search to view products". -/
  | filterPlaceholder
  /-- The cards written by `displayProducts`. -/
  | cards (cs : List Card)
deriving DecidableEq, Repr

/-- Role of a chat message. -/
inductive Role where
  | system
  | user
  | assistant
deriving DecidableEq, Repr

/-- JavaScript values that reach the chat code: parsed JSON, and `undefined`. -/
inductive JSVal where
  | undefined
  | null
  | bool (b : Bool)
  | num (n : Int)
  | str (s : JSString)
  | arr (items : List JSVal)
  | obj (fields : List (JSString × JSVal))

/-- An entry of the `messages` array sent to the worker. -/
structure Message where
  role : Role
  content : JSVal

/-- A node appended to `#chatWindow`. -/
inductive ChatNode where
  /-- A bubble built by `appendMessage`, with its `.delivery-status` text. -/
  | msg (role : Role) (text : JSVal) (status : JSString)
  /-- The loading placeholder `div.msg.assistant-msg` with its text. -/
  | loading (text : JSString)

/-- The mutable state of the page. -/
structure State where
  /-- The cached catalog `allProducts`. -/
  allProducts : List Product
  /-- The selection set `selectedProductIds`. -/
  selectedProductIds : List Int
  /-- The value stored under the key `"selectedProductIds"` (`none`: key absent). -/
  localStorage : Option JSString
  /-- Content of `#productsContainer`. -/
  productsContainer : Container
  /-- The conversation log `messages`. -/
  messages : List Message
  /-- Children of `#chatWindow`. -/
  chatWindow : List ChatNode

/-! ## Filter engine -/

/-- `displayProducts(products)`: one card per product, flagged `selected` when its id
is in the selection set. -/
def displayProducts (st : State) (products : List Product) : State :=
  { st with productsContainer :=
      .cards (products.map fun product =>
        { product := product, isSelected := decide (product.id ∈ st.selectedProductIds) }) }

/-- The `categoryMatch` of the filter callback. -/
def categoryMatch (selectedCategory : JSString) (product : Product) : Bool :=
  !truthy selectedCategory || selectedCategory.isEmpty ||
    decide (product.category = selectedCategory)

/-- The `searchMatch` of the filter callback; `query` is already trimmed and lowercased. -/
def searchMatch (toLowerCase : JSString → JSString) (query : JSString) (product : Product) :
    Bool :=
  !truthy query ||
    includes (toLowerCase product.name) query ||
    (truthy product.brand && includes (toLowerCase product.brand) query) ||
    (truthy product.category && includes (toLowerCase product.category) query) ||
    (truthy product.description && includes (toLowerCase product.description) query)

/-- `filterAndDisplay()`. `categoryFilter` and `productSearch` are the values of the two
controls (`none` when the element is missing), `fetched` is what `loadProducts()` resolves
to; it is consulted only while the cached catalog is empty. -/
def filterAndDisplay (toLowerCase : JSString → JSString) (fetched : List Product)
    (categoryFilter productSearch : Option JSString) (st : State) : State :=
  let selectedCategory : JSString :=
    match categoryFilter with
    | some value => value
    | none => []
  let query : JSString :=
    match productSearch with
    | some value => toLowerCase (trim value)
    | none => []
  let st : State :=
    if st.allProducts.isEmpty then { st with allProducts := fetched } else st
  if (!truthy query || query.length == 0) &&
      (!truthy selectedCategory || selectedCategory.isEmpty) then
    { st with productsContainer := .filterPlaceholder }
  else
    let filteredProducts := st.allProducts.filter fun product =>
      categoryMatch selectedCategory product && searchMatch toLowerCase query product
    displayProducts st filteredProducts

/-- The catalog `filterAndDisplay` filters: the cache, or the fetched list when the
cache is empty. -/
def effectiveCatalog (fetched : List Product) (st : State) : List Product :=
  if st.allProducts.isEmpty then fetched else st.allProducts

/-- Products shown in the grid, in display order (empty when a placeholder is shown). -/
def renderedProducts (c : Container) : List Product :=
  match c with
  | .cards cs => cs.map Card.product
  | _ => []

/-- The contract predicate of the filter engine, for a category and a (trimmed) query. -/
def Matches (toLowerCase : JSString → JSString) (category query : JSString)
    (p : Product) : Prop :=
  (category = [] ∨ p.category = category) ∧
  (query = [] ∨
    toLowerCase query <:+: toLowerCase p.name ∨
    toLowerCase query <:+: toLowerCase p.brand ∨
    toLowerCase query <:+: toLowerCase p.category ∨
    toLowerCase query <:+: toLowerCase p.description)

instance (toLowerCase : JSString → JSString) (category query : JSString) (p : Product) :
    Decidable (Matches toLowerCase category query p) := by
  unfold Matches; exact inferInstance

/-- An ASCII lowercasing, used to instantiate `toLowerCase` on concrete inputs. -/
def asciiLower (s : JSString) : JSString :=
  s.map fun c => if 65 ≤ c.toNat ∧ c.toNat ≤ 90 then Char.ofNat (c.toNat + 32) else c

/-- The content of the system message the log starts with. -/
def systemPrompt : JSString :=
  "You are a helpful L'Oréal product and routine advisor. When presenting routines or step-by-step instructions, always label steps as 'Step 1:', 'Step 2:', etc. Do NOT use asterisks (*), Markdown emphasis, or other markup—return plain, easy-to-read text. Keep explanations concise and include cautions where relevant. Make sure steps are bold for clarity.".toList

/-- The page state once the top-level code has run, for a selection set read from a
storage value. -/
def initialState (ids : List Int) (storage : Option JSString) : State :=
  { allProducts := [], selectedProductIds := ids, localStorage := storage,
    productsContainer := .initialPlaceholder,
    messages := [{ role := .system, content := .str systemPrompt }], chatWindow := [] }

/-- The state right after the script's top-level code ran with an empty storage. -/
def emptyState : State := initialState [] none

/-! ## JSON text of the selection set -/

/-- The decimal digit character of `d < 10`. -/
def digitChar (d : Nat) : Char := Char.ofNat (48 + d)

/-- Decimal digits of `n`, most significant first, by repeated division; `fuel` bounds
the number of divisions. -/
def decimalDigits : Nat → Nat → JSString
  | 0, _ => []
  | fuel + 1, n =>
    if n < 10 then [digitChar n] else decimalDigits fuel (n / 10) ++ [digitChar (n % 10)]

/-- Decimal numeral of a natural number (`n + 1` divisions always suffice). -/
def natToDecimal (n : Nat) : JSString := decimalDigits (n + 1) n

/-- `Number::toString` on an integer-valued number. -/
def numberToString (i : Int) : JSString :=
  if i < 0 then '-' :: natToDecimal i.natAbs else natToDecimal i.natAbs

/-- `JSON.stringify` on an array of integers: the numerals, comma separated, in brackets. -/
def JSON_stringify (ids : List Int) : JSString :=
  '[' :: ([','].intercalate (ids.map numberToString) ++ [']'])

/-- JSON insignificant white space. -/
def isJSONSpace (c : Char) : Bool := decide (c.toNat ∈ [0x20, 0x09, 0x0A, 0x0D])

/-- Strip JSON white space from both ends. -/
def stripJSONSpace (s : JSString) : JSString :=
  ((s.dropWhile isJSONSpace).reverse.dropWhile isJSONSpace).reverse

/-- A decimal digit character. -/
def isDigit (c : Char) : Bool := decide (48 ≤ c.toNat ∧ c.toNat ≤ 57)

/-- The number a string of decimal digits denotes. -/
def digitsValue (ds : JSString) : Nat := ds.foldl (fun acc c => 10 * acc + (c.toNat - 48)) 0

/-- The JSON `int` production without sign: one or more digits, no leading zero on a
numeral of two or more digits. -/
def parseDigits (ds : JSString) : Option Nat :=
  match ds with
  | [] => none
  | d :: rest =>
    if ds.all isDigit && (rest.isEmpty || d != '0') then some (digitsValue ds) else none

/-- An integer literal: an optional minus sign, then `parseDigits`. -/
def parseIntLiteral (s : JSString) : Option Int :=
  match s with
  | [] => none
  | c :: rest =>
    if c = '-' then
      match parseDigits rest with
      | some n => some (-(n : Int))
      | none => none
    else
      match parseDigits s with
      | some n => some (n : Int)
      | none => none

/-- All results, if every one is present. -/
def allPresent : List (Option Int) → Option (List Int)
  | [] => some []
  | none :: _ => none
  | some x :: rest => (allPresent rest).map fun xs => x :: xs

/-- `JSON.parse` restricted to the storage format, an array of integer literals with
optional white space around every token. `none` stands for every other text: there
`JSON.parse` throws or yields a value outside the data model of the selection set. -/
def JSON_parse (text : JSString) : Option (List Int) :=
  match stripJSONSpace text with
  | [] => none
  | c :: rest =>
    if c = '[' ∧ rest.getLast? = some ']' then
      let inner := rest.dropLast
      if stripJSONSpace inner = [] then some []
      else allPresent ((inner.splitOn ',').map fun piece => parseIntLiteral (stripJSONSpace piece))
    else none

/-! ## Selection store -/

/-- `saveSelectedIds()`: write the whole selection set under the storage key. -/
def saveSelectedIds (st : State) : State :=
  { st with localStorage := some (JSON_stringify st.selectedProductIds) }

/-- Where a click on `#productsContainer` landed. For a card, `dataId` is the result of
`parseInt(card.getAttribute("data-id"), 10)`, `none` standing for `NaN`. -/
inductive GridClick where
  | descToggle
  | card (dataId : Option Int)
  | outside

/-- The click listener of `#productsContainer`. The description toggle and the
`selected` class of the clicked card are presentation and leave `State` untouched. -/
def productsContainerClick (target : GridClick) (st : State) : State :=
  match target with
  | .descToggle => st
  | .outside => st
  | .card none => st
  | .card (some id) =>
    if id = 0 then st
    else if id ∈ st.selectedProductIds then st
    else saveSelectedIds { st with selectedProductIds := st.selectedProductIds ++ [id] }

/-- The store operation `add(id)`: a click on the card whose `data-id` parses to `id`. -/
def add (id : Int) (st : State) : State := productsContainerClick (.card (some id)) st

/-- Where a click on `#selectedProductsList` landed; `dataId` as in `GridClick`. -/
inductive PanelClick where
  | removeButton (dataId : Option Int)
  | outside

/-- The click listener of `#selectedProductsList`. -/
def selectedProductsListClick (target : PanelClick) (st : State) : State :=
  match target with
  | .outside => st
  | .removeButton none => st
  | .removeButton (some id) =>
    if id = 0 then st
    else
      saveSelectedIds
        { st with selectedProductIds := st.selectedProductIds.filter fun sid => sid != id }

/-- The store operation `remove(id)`: a click on the remove button of product `id`. -/
def remove (id : Int) (st : State) : State :=
  selectedProductsListClick (.removeButton (some id)) st

/-- The callback of `loadProducts().then(...)`: cache the catalog, drop the ids that no
catalog product carries, and persist. -/
def reconcile (products : List Product) (st : State) : State :=
  let st : State := { st with allProducts := products }
  let st : State :=
    { st with selectedProductIds :=
        st.selectedProductIds.filter fun id => st.allProducts.any fun p => p.id == id }
  saveSelectedIds st

/-- The start-up read `JSON.parse(localStorage.getItem("selectedProductIds") || "[]")`:
`none` when `JSON.parse` throws. -/
def loadSelectedIds (storage : Option JSString) : Option (List Int) :=
  JSON_parse
    (match storage with
     | some text => if truthy text then text else "[]".toList
     | none => "[]".toList)

/-- The script's top-level code: the selection set is read from storage, the catalog is
still empty. `none` when `JSON.parse` throws and the script stops. -/
def startup (storage : Option JSString) : Option State :=
  match loadSelectedIds storage with
  | some ids => some (initialState ids storage)
  | none => none

/-- A page load against a storage value: `startup`, then the catalog arrives and
`reconcile` runs. -/
def reload (storage : Option JSString) (catalog : List Product) : Option State :=
  match startup storage with
  | some st => some (reconcile catalog st)
  | none => none

/-- Persisted and in-memory selection agree. -/
def Consistent (st : State) : Prop :=
  st.localStorage = some (JSON_stringify st.selectedProductIds)

/-! ## Proxy client -/

/-- Truthiness of a value (`ToBoolean`). -/
def JSVal.truthy : JSVal → Bool
  | .undefined => false
  | .null => false
  | .bool b => b
  | .num n => n != 0
  | .str s => !s.isEmpty
  | .arr _ => true
  | .obj _ => true

/-- The ways `callWorkerProxy` rejects. -/
inductive ProxyError where
  /-- The `fetch` itself rejected. -/
  | network
  /-- The thrown `Worker error: <status> <body>`. -/
  | worker (status : Nat) (errText : JSString)
  /-- The body is not JSON: `res.json()` rejected. -/
  | syntaxError
  /-- A property was read from `null` or `undefined`. -/
  | typeError
  /-- The thrown `Unexpected response shape from worker.` -/
  | unexpectedShape
deriving DecidableEq, Repr

/-- Own property `v[key]` of an object, the last binding of a repeated key winning, as
`JSON.parse` builds it. -/
def lookupField (fields : List (JSString × JSVal)) (key : JSString) : JSVal :=
  match fields.reverse.find? fun kv => kv.1 == key with
  | some kv => kv.2
  | none => .undefined

/-- The property read `v.name` for the names the script reads (`choices`, `message`,
`content`, `output`): an own property of an object, `undefined` on every other value,
and a `TypeError` on `null` and `undefined`. -/
def JSVal.getField (v : JSVal) (name : JSString) : Except ProxyError JSVal :=
  match v with
  | .undefined => .error .typeError
  | .null => .error .typeError
  | .obj fields => .ok (lookupField fields name)
  | _ => .ok .undefined

/-- The indexed read `v[0]`. -/
def JSVal.getFirst (v : JSVal) : Except ProxyError JSVal :=
  match v with
  | .undefined => .error .typeError
  | .null => .error .typeError
  | .arr items =>
    match items with
    | first :: _ => .ok first
    | [] => .ok .undefined
  | .str s =>
    match s with
    | c :: _ => .ok (.str [c])
    | [] => .ok .undefined
  | .obj fields => .ok (lookupField fields ['0'])
  | _ => .ok .undefined

/-- What the `fetch` to the worker produced. For a response, `json` is the value
`res.json()` resolves to, `none` when the body is not JSON. -/
inductive FetchOutcome where
  | networkError
  | response (ok : Bool) (status : Nat) (bodyText : JSString) (json : Option JSVal)

/-- The part of `callWorkerProxy` after `const data = await res.json()`. -/
def replyOfData (data : JSVal) : Except ProxyError JSVal := do
  let choices ← data.getField "choices".toList
  let hasMessage ←
    if choices.truthy then do
      let first ← choices.getFirst
      if first.truthy then do
        let message ← first.getField "message".toList
        pure message.truthy
      else pure false
    else pure false
  if hasMessage then
    let first ← choices.getFirst
    let message ← first.getField "message".toList
    message.getField "content".toList
  else
    let output ← data.getField "output".toList
    if output.truthy then pure output
    else throw .unexpectedShape

/-- `callWorkerProxy(messages)` as a function of what the `fetch` produced; the `catch`
block logs and rethrows. -/
def callWorkerProxy (outcome : FetchOutcome) : Except ProxyError JSVal :=
  match outcome with
  | .networkError => .error .network
  | .response ok status bodyText json =>
    if !ok then .error (.worker status bodyText)
    else
      match json with
      | none => .error .syntaxError
      | some data => replyOfData data

/-! ## Conversation log -/

/-- `appendMessage(role, text)`: a new bubble at the end of the chat window, a user
bubble starting with the status `Sending...`. The element id and the time stamp are
left out. -/
def appendMessage (role : Role) (text : JSVal) (st : State) : State :=
  { st with chatWindow :=
      st.chatWindow ++ [.msg role text (if role = .user then "Sending...".toList else [])] }

/-- Set the status text of the node at a position. -/
def setStatusAt : Nat → JSString → List ChatNode → List ChatNode
  | _, _, [] => []
  | 0, statusText, node :: rest =>
    (match node with
     | .msg role text _ => .msg role text statusText
     | other => other) :: rest
  | i + 1, statusText, node :: rest => node :: setStatusAt i statusText rest

/-- `updateMessageStatus(msgEl, statusText)`, the element given by its position. -/
def updateMessageStatus (msgEl : Nat) (statusText : JSString) (st : State) : State :=
  { st with chatWindow := setStatusAt msgEl statusText st.chatWindow }

/-- Set the text of the loading placeholder at a position. -/
def setLoadingTextAt : Nat → JSString → List ChatNode → List ChatNode
  | _, _, [] => []
  | 0, text, node :: rest =>
    (match node with
     | .loading _ => .loading text
     | other => other) :: rest
  | i + 1, text, node :: rest => node :: setLoadingTextAt i text rest

/-- The chat form `submit` listener. `inputValue` is the value of `#userInput`,
`outcome` what the request to the worker produced. -/
def chatSubmit (inputValue : JSString) (outcome : FetchOutcome) (st : State) : State :=
  let text := trim inputValue
  if !truthy text then st
  else
    let userMsgEl := st.chatWindow.length
    let st := appendMessage .user (.str text) st
    let st : State := { st with messages := st.messages ++ [{ role := .user, content := .str text }] }
    let loadingEl := st.chatWindow.length
    let st : State :=
      { st with chatWindow :=
          st.chatWindow ++ [.loading "Generating response... Please wait!".toList] }
    match callWorkerProxy outcome with
    | .ok reply =>
      let st : State := { st with chatWindow := st.chatWindow.eraseIdx loadingEl }
      let st := updateMessageStatus userMsgEl "Delivered".toList st
      let assistantEl := st.chatWindow.length
      let st := appendMessage .assistant reply st
      let st : State :=
        { st with messages := st.messages ++ [{ role := .assistant, content := reply }] }
      let st := updateMessageStatus userMsgEl "Read".toList st
      updateMessageStatus assistantEl "Delivered".toList st
    | .error _ =>
      let notice := "Sorry — I couldn't reach the assistant. Try again later.".toList
      let st : State :=
        { st with chatWindow := setLoadingTextAt loadingEl notice st.chatWindow }
      updateMessageStatus userMsgEl "Failed".toList st

/-! ## Generate Routine -/

/-- The prompt sent when no selected product is found. -/
def clarifyingPrompt : JSString :=
  "I would like a personalized routine, but I haven't selected any products yet. Please ask me follow-up questions to learn my skin/hair type, concerns, allergies, and whether I want an AM or PM routine, so you can recommend products and a step-by-step routine. IMPORTANT: When you ask questions or provide an eventual routine, label steps as 'Step 1:', 'Step 2:', etc., and do not use any asterisks (*) or Markdown formatting—use plain text only.".toList

/-- The fixed head of the routine prompt, up to and including `Selected products:`. -/
def routinePromptHead : JSString :=
  "Please create a clear, step-by-step personalized routine using only the selected products below. For each step, include the product name, when to use it (AM/PM), order, short rationale, clear step by step answers, and any cautions (e.g., avoid retinol with certain actives). Keep it friendly and concise. IMPORTANT: Label each step exactly as 'Step 1:', 'Step 2:', etc. Do NOT use asterisks (*) or Markdown formatting—return plain text only.\n\nSelected products:\n".toList

/-- One entry of `productSummaries`: number, brand, name, category, then the description
on a line of its own. -/
def productSummary (i : Nat) (p : Product) : JSString :=
  natToDecimal (i + 1) ++ ". ".toList ++ p.brand ++ " — ".toList ++ p.name ++ " (".toList ++
    p.category ++ ")\n   ".toList ++ (if truthy p.description then p.description else [])

/-- The templated `userPrompt` for a non-empty list of selected products. -/
def routinePrompt (selectedProducts : List Product) : JSString :=
  routinePromptHead ++ "\n\n".toList.intercalate (selectedProducts.mapIdx productSummary)

/-- The products the Generate Routine listener works on: the catalog products whose id
is in the selection set, in catalog order. -/
def selectedProducts (st : State) : List Product :=
  st.allProducts.filter fun p => decide (p.id ∈ st.selectedProductIds)

/-- The log entries a proxy call adds: the assistant reply on success, nothing on failure. -/
def replyMessages (outcome : FetchOutcome) : List Message :=
  match callWorkerProxy outcome with
  | .ok reply => [{ role := .assistant, content := reply }]
  | .error _ => []

/-- The click listener of the Generate Routine button (the button's own label and
`disabled` flag are left out). -/
def generateRoutineClick (outcome : FetchOutcome) (st : State) : State :=
  let selected := selectedProducts st
  let st : State :=
    if selected.isEmpty then
      let userPrompt := clarifyingPrompt
      let st := appendMessage .user (.str userPrompt) st
      { st with messages := st.messages ++ [{ role := .user, content := .str userPrompt }] }
    else
      let userPrompt := routinePrompt selected
      let st :=
        appendMessage .user
          (.str "Please generate a personalized routine using the selected products.".toList) st
      { st with messages := st.messages ++ [{ role := .user, content := .str userPrompt }] }
  let loadingEl := st.chatWindow.length
  let st : State :=
    { st with chatWindow := st.chatWindow ++ [.loading "Generating routine...".toList] }
  match callWorkerProxy outcome with
  | .ok reply =>
    let st : State := { st with chatWindow := st.chatWindow.eraseIdx loadingEl }
    let st := appendMessage .assistant reply st
    { st with messages := st.messages ++ [{ role := .assistant, content := reply }] }
  | .error _ =>
    let notice := "Could not generate routine right now.".toList
    { st with chatWindow := setLoadingTextAt loadingEl notice st.chatWindow }

/-! ## Sample data -/

/-- The product of the specification's scenarios. -/
def hydraSerum : Product :=
  { id := 7, name := "Hydra Serum".toList, brand := "X".toList, category := "serum".toList,
    description := "A light hydrating serum.".toList, image := "img/serum.png".toList }

/-- A second catalog entry, with no description. -/
def dayCream : Product :=
  { id := 2, name := "Day Cream".toList, brand := "Y".toList,
    category := "moisturizer".toList, description := [], image := "img/cream.png".toList }

/-- A two-product catalog. -/
def sampleCatalog : List Product := [hydraSerum, dayCream]

/-! ## Filter engine: lemmas -/

theorem truthy_iff (s : JSString) : truthy s = true ↔ s ≠ [] := by
  cases s <;> simp [truthy]

theorem trim_nil : trim [] = [] := rfl

theorem asciiLower_nil : asciiLower [] = [] := rfl

theorem asciiLower_eq_nil (s : JSString) (h : asciiLower s = []) : s = [] := by
  simpa [asciiLower] using h

theorem categoryMatch_iff (category : JSString) (p : Product) :
    categoryMatch category p = true ↔ (category = [] ∨ p.category = category) := by
  cases category <;> simp [categoryMatch, truthy]

theorem guarded_includes_iff (toLowerCase : JSString → JSString) (hnil : toLowerCase [] = [])
    (field query : JSString) (hq : query ≠ []) :
    (truthy field && includes (toLowerCase field) query) = true ↔
      query <:+: toLowerCase field := by
  cases field with
  | nil => simp [truthy, includes, hnil, hq]
  | cons c cs => simp [truthy, includes]

theorem searchMatch_iff (toLowerCase : JSString → JSString) (hnil : toLowerCase [] = [])
    (hne : ∀ s, toLowerCase s = [] → s = []) (query : JSString) (p : Product) :
    searchMatch toLowerCase (toLowerCase query) p = true ↔
      (query = [] ∨
        toLowerCase query <:+: toLowerCase p.name ∨
        toLowerCase query <:+: toLowerCase p.brand ∨
        toLowerCase query <:+: toLowerCase p.category ∨
        toLowerCase query <:+: toLowerCase p.description) := by
  by_cases hq : query = []
  · subst hq
    simp [searchMatch, truthy, hnil]
  · have hq' : toLowerCase query ≠ [] := fun h => hq (hne _ h)
    have hb := guarded_includes_iff toLowerCase hnil p.brand _ hq'
    have hc := guarded_includes_iff toLowerCase hnil p.category _ hq'
    have hd := guarded_includes_iff toLowerCase hnil p.description _ hq'
    have ht : truthy (toLowerCase query) = true := (truthy_iff _).2 hq'
    simp only [searchMatch, Bool.or_eq_true, hb, hc, hd, ht, Bool.not_true, Bool.false_eq_true,
      hq, false_or]
    simp [includes, or_assoc]

/-- The two branches of `filterAndDisplay`, with the control values read off. -/
theorem filterAndDisplay_unfold (toLowerCase : JSString → JSString)
    (hnil : toLowerCase [] = [])
    (fetched : List Product) (categoryFilter productSearch : Option JSString) (st : State) :
    filterAndDisplay toLowerCase fetched categoryFilter productSearch st =
      if toLowerCase (trim (productSearch.getD [])) = [] ∧ categoryFilter.getD [] = [] then
        { (if st.allProducts.isEmpty then { st with allProducts := fetched } else st) with
            productsContainer := .filterPlaceholder }
      else
        displayProducts (if st.allProducts.isEmpty then { st with allProducts := fetched } else st)
          ((effectiveCatalog fetched st).filter fun product =>
            categoryMatch (categoryFilter.getD []) product &&
              searchMatch toLowerCase (toLowerCase (trim (productSearch.getD []))) product) := by
  have hq : (match productSearch with
      | some value => toLowerCase (trim value)
      | none => []) = toLowerCase (trim (productSearch.getD [])) := by
    cases productSearch <;> simp [trim_nil, hnil]
  have hc : (match categoryFilter with
      | some value => value
      | none => []) = categoryFilter.getD [] := by
    cases categoryFilter <;> rfl
  have hcat : (if st.allProducts.isEmpty then { st with allProducts := fetched } else st).allProducts
      = effectiveCatalog fetched st := by
    unfold effectiveCatalog
    split <;> rfl
  unfold filterAndDisplay
  simp only [hq, hc, hcat]
  generalize toLowerCase (trim (productSearch.getD [])) = q
  generalize categoryFilter.getD [] = c
  cases q <;> cases c <;> simp [truthy]

/-- With a criterion set, the grid shows the catalog filtered by the contract predicate. -/
theorem filterAndDisplay_shows_filter (toLowerCase : JSString → JSString)
    (hnil : toLowerCase [] = []) (hne : ∀ s, toLowerCase s = [] → s = [])
    (fetched : List Product) (categoryFilter productSearch : Option JSString) (st : State)
    (hcrit : ¬(categoryFilter.getD [] = [] ∧ trim (productSearch.getD []) = [])) :
    (∃ cs, (filterAndDisplay toLowerCase fetched categoryFilter productSearch st).productsContainer
        = .cards cs) ∧
    renderedProducts
        (filterAndDisplay toLowerCase fetched categoryFilter productSearch st).productsContainer
      = (effectiveCatalog fetched st).filter fun p =>
          decide (Matches toLowerCase (categoryFilter.getD []) (trim (productSearch.getD [])) p) := by
  have hcond : ¬(toLowerCase (trim (productSearch.getD [])) = [] ∧ categoryFilter.getD [] = []) :=
    fun h => hcrit ⟨h.2, hne _ h.1⟩
  rw [filterAndDisplay_unfold toLowerCase hnil, if_neg hcond]
  refine ⟨⟨_, rfl⟩, ?_⟩
  simp only [displayProducts, renderedProducts, List.map_map]
  have hid : (Card.product ∘ fun product : Product =>
      ({ product := product,
         isSelected := decide (product.id ∈
           (if st.allProducts.isEmpty then { st with allProducts := fetched }
            else st).selectedProductIds) } : Card)) = id := by
    funext p; rfl
  rw [hid, List.map_id]
  apply List.filter_congr
  intro p _
  rw [Bool.eq_iff_iff]
  simp only [Bool.and_eq_true, categoryMatch_iff, searchMatch_iff toLowerCase hnil hne,
    decide_eq_true_eq, Matches]

/-! ## Filter engine: the claims -/

/-- C1. Whenever the category and the query (the search text, trimmed) are not both
empty, `filterAndDisplay` renders a product list, and that list is exactly the catalog's
products, in catalog order, whose category is the selected one (or none is selected) and
which contain the lowercased query in their lowercased name, brand, category or
description (or the query is empty): every rendered product satisfies both predicates
and every catalog product that is not rendered violates one. `toLowerCase` is any
function that maps the empty string, and only it, to the empty string. -/
theorem filterAndDisplay_renders_exactly_the_matches (toLowerCase : JSString → JSString)
    (hnil : toLowerCase [] = []) (hne : ∀ s, toLowerCase s = [] → s = [])
    (fetched : List Product) (categoryFilter productSearch : Option JSString) (st : State)
    (hcrit : ¬(categoryFilter.getD [] = [] ∧ trim (productSearch.getD []) = [])) :
    (∃ cs, (filterAndDisplay toLowerCase fetched categoryFilter productSearch st).productsContainer
        = .cards cs) ∧
    renderedProducts
        (filterAndDisplay toLowerCase fetched categoryFilter productSearch st).productsContainer
      = (effectiveCatalog fetched st).filter (fun p =>
          decide (Matches toLowerCase (categoryFilter.getD []) (trim (productSearch.getD [])) p)) ∧
    (∀ p ∈ renderedProducts
        (filterAndDisplay toLowerCase fetched categoryFilter productSearch st).productsContainer,
      Matches toLowerCase (categoryFilter.getD []) (trim (productSearch.getD [])) p) ∧
    (∀ p ∈ effectiveCatalog fetched st,
      p ∉ renderedProducts
        (filterAndDisplay toLowerCase fetched categoryFilter productSearch st).productsContainer →
      ¬Matches toLowerCase (categoryFilter.getD []) (trim (productSearch.getD [])) p) := by
  obtain ⟨hcards, hshown⟩ :=
    filterAndDisplay_shows_filter toLowerCase hnil hne fetched categoryFilter productSearch st hcrit
  refine ⟨hcards, hshown, ?_, ?_⟩
  · intro p hp
    rw [hshown, List.mem_filter] at hp
    exact of_decide_eq_true hp.2
  · intro p hp hnot hm
    apply hnot
    rw [hshown, List.mem_filter]
    exact ⟨hp, decide_eq_true hm⟩

/-- C1 at a concrete input: the two-product catalog, no category, search text `" SER "`. -/
theorem filterAndDisplay_renders_exactly_the_matches_witness :
    renderedProducts
        (filterAndDisplay asciiLower sampleCatalog (some []) (some " SER ".toList)
          emptyState).productsContainer
      = [hydraSerum] ∧
    renderedProducts
        (filterAndDisplay asciiLower sampleCatalog (some []) (some " SER ".toList)
          emptyState).productsContainer
      = (effectiveCatalog sampleCatalog emptyState).filter (fun p =>
          decide (Matches asciiLower [] (trim " SER ".toList) p)) :=
  ⟨by decide,
   (filterAndDisplay_renders_exactly_the_matches asciiLower asciiLower_nil asciiLower_eq_nil
      sampleCatalog (some []) (some " SER ".toList) emptyState (by decide)).2.1⟩

/-- C2. When the category and the query (the search text, trimmed) are both empty,
`filterAndDisplay` shows the placeholder and no product list, not even an empty one:
`displayProducts` is not reached. -/
theorem filterAndDisplay_placeholder_without_criteria (toLowerCase : JSString → JSString)
    (hnil : toLowerCase [] = [])
    (fetched : List Product) (categoryFilter productSearch : Option JSString) (st : State)
    (hcategory : categoryFilter.getD [] = []) (hquery : trim (productSearch.getD []) = []) :
    (filterAndDisplay toLowerCase fetched categoryFilter productSearch st).productsContainer
      = .filterPlaceholder ∧
    ∀ cs, (filterAndDisplay toLowerCase fetched categoryFilter productSearch st).productsContainer
      ≠ .cards cs := by
  have hcond : toLowerCase (trim (productSearch.getD [])) = [] ∧ categoryFilter.getD [] = [] :=
    ⟨by rw [hquery, hnil], hcategory⟩
  rw [filterAndDisplay_unfold toLowerCase hnil, if_pos hcond]
  exact ⟨rfl, fun cs h => Container.noConfusion h⟩

/-- C2 at a concrete input: a loaded catalog, no category, a blank search box. -/
theorem filterAndDisplay_placeholder_without_criteria_witness :
    (filterAndDisplay asciiLower sampleCatalog (some []) (some "  ".toList)
        emptyState).productsContainer = .filterPlaceholder ∧
    ∀ cs, (filterAndDisplay asciiLower sampleCatalog (some []) (some "  ".toList)
        emptyState).productsContainer ≠ .cards cs :=
  filterAndDisplay_placeholder_without_criteria asciiLower asciiLower_nil sampleCatalog
    (some []) (some "  ".toList) emptyState (by decide) (by decide)

/-! ## JSON text: lemmas -/

theorem digitChar_isDigit (d : Nat) (h : d < 10) : isDigit (digitChar d) = true := by
  interval_cases d <;> decide

theorem digitChar_value (d : Nat) (h : d < 10) : (digitChar d).toNat - 48 = d := by
  interval_cases d <;> decide

theorem digitChar_ne_zero (d : Nat) (h : d < 10) (h0 : d ≠ 0) : (digitChar d != '0') = true := by
  interval_cases d <;> first | contradiction | decide

theorem digitsValue_append_single (ds : JSString) (c : Char) :
    digitsValue (ds ++ [c]) = 10 * digitsValue ds + (c.toNat - 48) := by
  simp [digitsValue, List.foldl_append]

theorem decimalDigits_ne_nil (fuel n : Nat) (h : n < fuel) : decimalDigits fuel n ≠ [] := by
  cases fuel with
  | zero => omega
  | succ fuel =>
    unfold decimalDigits
    split <;> simp

theorem decimalDigits_all_isDigit (fuel : Nat) :
    ∀ n, ∀ c ∈ decimalDigits fuel n, isDigit c = true := by
  induction fuel with
  | zero => intro n c hc; simp [decimalDigits] at hc
  | succ fuel ih =>
    intro n c hc
    unfold decimalDigits at hc
    split at hc
    · rename_i hlt
      simp only [List.mem_singleton] at hc
      subst hc
      exact digitChar_isDigit n hlt
    · rw [List.mem_append] at hc
      rcases hc with hc | hc
      · exact ih _ c hc
      · simp only [List.mem_singleton] at hc
        subst hc
        exact digitChar_isDigit _ (Nat.mod_lt _ (by decide))

theorem decimalDigits_value (fuel : Nat) :
    ∀ n, n < fuel → digitsValue (decimalDigits fuel n) = n := by
  induction fuel with
  | zero => intro n h; omega
  | succ fuel ih =>
    intro n h
    unfold decimalDigits
    split
    · rename_i hlt
      simp [digitsValue, digitChar_value n hlt]
    · rename_i hge
      rw [digitsValue_append_single, ih (n / 10) (by omega),
        digitChar_value _ (Nat.mod_lt _ (by decide))]
      omega

theorem decimalDigits_head (fuel : Nat) :
    ∀ n, n < fuel → 0 < n →
      ∃ d rest, decimalDigits fuel n = d :: rest ∧ (d != '0') = true := by
  induction fuel with
  | zero => intro n h; omega
  | succ fuel ih =>
    intro n h hpos
    unfold decimalDigits
    split
    · rename_i hlt
      exact ⟨_, [], rfl, digitChar_ne_zero n hlt (by omega)⟩
    · rename_i hge
      obtain ⟨d, rest, hd, hne⟩ := ih (n / 10) (by omega) (by omega)
      exact ⟨d, rest ++ [digitChar (n % 10)], by rw [hd]; rfl, hne⟩

theorem parseDigits_natToDecimal (n : Nat) : parseDigits (natToDecimal n) = some n := by
  have hall : (natToDecimal n).all isDigit = true := by
    rw [List.all_eq_true]
    exact decimalDigits_all_isDigit _ n
  have hval : digitsValue (natToDecimal n) = n := decimalDigits_value _ n (by omega)
  by_cases h0 : n = 0
  · subst h0; decide
  · obtain ⟨d, rest, hd, hne⟩ := decimalDigits_head (n + 1) n (by omega) (by omega)
    have hd' : natToDecimal n = d :: rest := hd
    rw [hd'] at hall hval ⊢
    unfold parseDigits
    simp only [hall, hne, Bool.or_true, Bool.and_self, if_true]
    exact congrArg some hval

theorem isDigit_not_minus (c : Char) (h : isDigit c = true) : c ≠ '-' := by
  intro hc; subst hc; revert h; decide

theorem isDigit_not_comma (c : Char) (h : isDigit c = true) : c ≠ ',' := by
  intro hc; subst hc; revert h; decide

theorem isDigit_not_space (c : Char) (h : isDigit c = true) : isJSONSpace c = false := by
  simp only [isDigit, decide_eq_true_eq] at h
  simp only [isJSONSpace, decide_eq_false_iff_not, List.mem_cons, List.mem_singleton,
    List.mem_nil_iff, or_false, not_or]
  omega

theorem parseIntLiteral_numberToString (i : Int) :
    parseIntLiteral (numberToString i) = some i := by
  unfold numberToString
  split
  · rename_i hneg
    simp only [parseIntLiteral, if_true, parseDigits_natToDecimal]
    congr 1
    rw [Int.natCast_natAbs, abs_of_neg hneg, neg_neg]
  · rename_i hpos
    have hp := parseDigits_natToDecimal i.natAbs
    obtain ⟨d, rest, hd⟩ : ∃ d rest, natToDecimal i.natAbs = d :: rest := by
      have := decimalDigits_ne_nil (i.natAbs + 1) i.natAbs (by omega)
      cases h : natToDecimal i.natAbs with
      | nil => exact absurd h this
      | cons d rest => exact ⟨d, rest, rfl⟩
    have hdig : isDigit d = true :=
      decimalDigits_all_isDigit _ i.natAbs d (by
        have : d ∈ natToDecimal i.natAbs := by rw [hd]; exact List.mem_cons_self _ _
        exact this)
    rw [hd] at hp ⊢
    simp only [parseIntLiteral, if_neg (isDigit_not_minus d hdig), hp]
    congr 1
    rw [Int.natCast_natAbs, abs_of_nonneg (not_lt.mp hpos)]

/-- Every character of a numeral is a digit or the minus sign. -/
theorem numberToString_chars (i : Int) :
    ∀ c ∈ numberToString i, c = '-' ∨ isDigit c = true := by
  intro c hc
  unfold numberToString at hc
  split at hc
  · rw [List.mem_cons] at hc
    rcases hc with hc | hc
    · exact Or.inl hc
    · exact Or.inr (decimalDigits_all_isDigit _ _ c hc)
  · exact Or.inr (decimalDigits_all_isDigit _ _ c hc)

theorem numberToString_ne_nil (i : Int) : numberToString i ≠ [] := by
  unfold numberToString
  split
  · simp
  · exact decimalDigits_ne_nil _ _ (by omega)

theorem dropWhile_eq_self_of_head (p : Char → Bool) (c : Char) (rest : JSString)
    (h : p c = false) : (c :: rest).dropWhile p = c :: rest := by
  simp [List.dropWhile, h]

/-- Stripping leaves a text alone whose first and last characters are not white space. -/
theorem stripJSONSpace_eq_self (c : Char) (mid : JSString) (d : Char)
    (hc : isJSONSpace c = false) (hd : isJSONSpace d = false) :
    stripJSONSpace (c :: (mid ++ [d])) = c :: (mid ++ [d]) := by
  unfold stripJSONSpace
  rw [dropWhile_eq_self_of_head _ c _ hc]
  have hrev : (c :: (mid ++ [d])).reverse = d :: (mid.reverse ++ [c]) := by simp
  rw [hrev, dropWhile_eq_self_of_head _ d _ hd]
  simp

theorem stripJSONSpace_single (c : Char) (hc : isJSONSpace c = false) :
    stripJSONSpace [c] = [c] := by
  simp [stripJSONSpace, List.dropWhile, hc]

/-- Stripping leaves a text alone none of whose characters is white space. -/
theorem stripJSONSpace_of_no_space (s : JSString) (h : ∀ c ∈ s, isJSONSpace c = false) :
    stripJSONSpace s = s := by
  cases s with
  | nil => rfl
  | cons c rest =>
    rcases List.eq_nil_or_concat rest with hr | ⟨mid, d, hr⟩
    · subst hr
      exact stripJSONSpace_single c (h c (List.mem_cons_self _ _))
    · subst hr
      rw [List.concat_eq_append] at h ⊢
      apply stripJSONSpace_eq_self
      · exact h c (List.mem_cons_self _ _)
      · exact h d (by simp)

theorem numberToString_no_space (i : Int) : ∀ c ∈ numberToString i, isJSONSpace c = false := by
  intro c hc
  rcases numberToString_chars i c hc with h | h
  · subst h; decide
  · exact isDigit_not_space c h

theorem numberToString_no_comma (i : Int) : ',' ∉ numberToString i := by
  intro hc
  rcases numberToString_chars i _ hc with h | h
  · exact absurd h (by decide)
  · exact absurd h (by decide)

theorem allPresent_map_some (f : JSString → Option Int) (g : Int → JSString)
    (h : ∀ i, f (g i) = some i) (ids : List Int) :
    allPresent ((ids.map g).map f) = some ids := by
  induction ids with
  | nil => rfl
  | cons i rest ih =>
    simp only [List.map_cons, h i, allPresent, ih, Option.map_some']

theorem intercalate_cons_cons (sep x y : JSString) (tl : List JSString) :
    sep.intercalate (x :: y :: tl) = x ++ (sep ++ sep.intercalate (y :: tl)) := by
  simp [List.intercalate]

/-- A character of `sep.intercalate ls` comes from the separator or from a piece. -/
theorem mem_intercalate (sep : JSString) (c : Char) :
    ∀ ls : List JSString, c ∈ sep.intercalate ls → c ∈ sep ∨ ∃ l ∈ ls, c ∈ l := by
  intro ls
  induction ls with
  | nil => intro h; simp [List.intercalate] at h
  | cons x tl ih =>
    cases tl with
    | nil =>
      intro h
      have hx : c ∈ x := by simpa [List.intercalate] using h
      exact Or.inr ⟨x, List.mem_cons_self _ _, hx⟩
    | cons y tl =>
      intro h
      rw [intercalate_cons_cons, List.mem_append, List.mem_append] at h
      rcases h with h | h | h
      · exact Or.inr ⟨x, List.mem_cons_self _ _, h⟩
      · exact Or.inl h
      · rcases ih h with h | ⟨l, hl, hcl⟩
        · exact Or.inl h
        · exact Or.inr ⟨l, List.mem_cons_of_mem _ hl, hcl⟩

theorem intercalate_no_space (ids : List Int) :
    ∀ c ∈ [','].intercalate (ids.map numberToString), isJSONSpace c = false := by
  intro c hc
  rcases mem_intercalate _ c _ hc with h | ⟨l, hl, hcl⟩
  · rw [List.mem_singleton] at h
    subst h
    decide
  · rw [List.mem_map] at hl
    obtain ⟨j, _, rfl⟩ := hl
    exact numberToString_no_space j c hcl

/-- `JSON.parse(JSON.stringify(ids))` is `ids`. -/
theorem JSON_parse_stringify (ids : List Int) : JSON_parse (JSON_stringify ids) = some ids := by
  unfold JSON_parse JSON_stringify
  rw [stripJSONSpace_eq_self _ _ _ (by decide) (by decide)]
  simp only [List.getLast?_append, List.getLast?_singleton, Option.or_some, true_and,
    and_self, if_true, List.dropLast_concat]
  cases ids with
  | nil => simp [List.intercalate, stripJSONSpace]
  | cons i rest =>
    have hne : stripJSONSpace ([','].intercalate ((i :: rest).map numberToString)) ≠ [] := by
      rw [stripJSONSpace_of_no_space _ (intercalate_no_space _)]
      obtain ⟨d, ds, hd⟩ := List.exists_cons_of_ne_nil (numberToString_ne_nil i)
      cases rest <;> simp [List.intercalate, hd]
    rw [if_neg hne]
    have hsplit := List.splitOn_intercalate ((i :: rest).map numberToString) ','
      (by
        intro l hl
        rw [List.mem_map] at hl
        obtain ⟨j, _, rfl⟩ := hl
        exact numberToString_no_comma j)
      (by simp)
    rw [hsplit]
    exact allPresent_map_some _ _
      (fun j => by
        rw [stripJSONSpace_of_no_space _ (numberToString_no_space j)]
        exact parseIntLiteral_numberToString j) (i :: rest)

/-! ## Selection store: lemmas -/

theorem add_of_mem (st : State) (id : Int) (h : id ∈ st.selectedProductIds) (hid : id ≠ 0) :
    add id st = st := by
  simp [add, productsContainerClick, hid, h]

theorem add_of_not_mem (st : State) (id : Int) (h : id ∉ st.selectedProductIds) (hid : id ≠ 0) :
    add id st =
      saveSelectedIds { st with selectedProductIds := st.selectedProductIds ++ [id] } := by
  simp [add, productsContainerClick, hid, h]

theorem remove_of_ne_zero (st : State) (id : Int) (hid : id ≠ 0) :
    remove id st =
      saveSelectedIds
        { st with selectedProductIds := st.selectedProductIds.filter fun sid => sid != id } := by
  simp [remove, selectedProductsListClick, hid]

theorem saveSelectedIds_consistent (st : State) : Consistent (saveSelectedIds st) := rfl

theorem truthy_JSON_stringify (ids : List Int) : truthy (JSON_stringify ids) = true := rfl

theorem loadSelectedIds_saved (st : State) :
    loadSelectedIds (saveSelectedIds st).localStorage = some st.selectedProductIds := by
  simp only [loadSelectedIds, saveSelectedIds, truthy_JSON_stringify, if_true]
  exact JSON_parse_stringify _

/-! ## Selection store: the claims -/

/-- C3, counterexample. A click on the card of product id 0, which is not selected,
neither appends 0 to the selection set nor writes to storage. -/
theorem add_zero_is_ignored :
    (0 : Int) ∉ emptyState.selectedProductIds ∧
    (add 0 emptyState).selectedProductIds ≠ emptyState.selectedProductIds ++ [0] ∧
    (add 0 emptyState).localStorage ≠
      some (JSON_stringify (emptyState.selectedProductIds ++ [0])) := by
  decide

/-- C3, amended. For every state and every nonzero integer id: if the id is already
selected, `add(id)` changes nothing; otherwise the selection set becomes the previous set
with the id appended at the end, that full set is what storage holds afterwards, and
nothing else of the state changes. For id 0 the handler returns at its guard and changes
nothing. -/
theorem add_nonzero_appends_and_persists (st : State) (id : Int) :
    (id ≠ 0 → id ∈ st.selectedProductIds → add id st = st) ∧
    (id ≠ 0 → id ∉ st.selectedProductIds →
      add id st =
        { st with
          selectedProductIds := st.selectedProductIds ++ [id]
          localStorage := some (JSON_stringify (st.selectedProductIds ++ [id])) }) ∧
    (id = 0 → add id st = st) := by
  refine ⟨fun hid h => add_of_mem st id h hid, fun hid h => ?_, fun hid => ?_⟩
  · rw [add_of_not_mem st id h hid]
    rfl
  · subst hid
    rfl

/-- C3 at concrete inputs: adding 2 to the set `[7]`, and adding 7 again. -/
theorem add_nonzero_appends_and_persists_witness :
    (add 2 (initialState [7] none)).selectedProductIds = [7, 2] ∧
    (add 2 (initialState [7] none)).localStorage = some "[7,2]".toList ∧
    add 7 (initialState [7] none) = initialState [7] none :=
  ⟨congrArg State.selectedProductIds
      ((add_nonzero_appends_and_persists (initialState [7] none) 2).2.1 (by decide) (by decide)),
   congrArg State.localStorage
      ((add_nonzero_appends_and_persists (initialState [7] none) 2).2.1 (by decide) (by decide)),
   (add_nonzero_appends_and_persists (initialState [7] none) 7).1 (by decide) (by decide)⟩

/-- C4, counterexample. With the set `[0, 5]`, a click on the remove button of product
id 0 leaves 0 in the set and writes nothing to storage. -/
theorem remove_zero_is_ignored :
    (remove 0 (initialState [0, 5] none)).selectedProductIds = [0, 5] ∧
    (0 : Int) ∈ (remove 0 (initialState [0, 5] none)).selectedProductIds ∧
    (remove 0 (initialState [0, 5] none)).localStorage = none := by
  decide

/-- C4, amended. For every state and every nonzero integer id, `remove(id)` yields the
set without `id`, every other id kept with its multiplicity and in the original order,
and storage afterwards holds that full set; when `id` is absent the set is unchanged,
and a second `remove(id)` changes nothing. For id 0 the handler returns at its guard and
changes nothing. -/
theorem remove_nonzero_removes_and_persists (st : State) (id : Int) :
    (id ≠ 0 →
      id ∉ (remove id st).selectedProductIds ∧
      (remove id st).selectedProductIds.Sublist st.selectedProductIds ∧
      (∀ other, other ≠ id →
        (remove id st).selectedProductIds.count other = st.selectedProductIds.count other) ∧
      (remove id st).localStorage = some (JSON_stringify (remove id st).selectedProductIds) ∧
      (id ∉ st.selectedProductIds →
        (remove id st).selectedProductIds = st.selectedProductIds) ∧
      remove id (remove id st) = remove id st) ∧
    (id = 0 → remove id st = st) := by
  refine ⟨fun hid => ?_, fun hid => by subst hid; rfl⟩
  have hsel : (remove id st).selectedProductIds
      = st.selectedProductIds.filter fun sid => sid != id := by
    rw [remove_of_ne_zero st id hid]; rfl
  refine ⟨?_, ?_, ?_, ?_, ?_, ?_⟩
  · rw [hsel]; simp
  · rw [hsel]; exact List.filter_sublist _
  · intro other hne
    rw [hsel, List.count_filter]
    simpa using hne
  · rw [remove_of_ne_zero st id hid]; rfl
  · intro h
    rw [hsel, List.filter_eq_self]
    intro a ha
    have : a ≠ id := fun e => h (e ▸ ha)
    simpa using this
  · rw [remove_of_ne_zero _ id hid, remove_of_ne_zero st id hid]
    simp [saveSelectedIds]

/-- C4 at a concrete input: removing 7 from `[2, 7, 5]`, twice. -/
theorem remove_nonzero_removes_and_persists_witness :
    (remove 7 (initialState [2, 7, 5] none)).selectedProductIds = [2, 5] ∧
    (remove 7 (initialState [2, 7, 5] none)).localStorage = some "[2,5]".toList ∧
    remove 7 (remove 7 (initialState [2, 7, 5] none)) = remove 7 (initialState [2, 7, 5] none) :=
  ⟨by decide,
   ((remove_nonzero_removes_and_persists (initialState [2, 7, 5] none) 7).1
      (by decide)).2.2.2.1,
   ((remove_nonzero_removes_and_persists (initialState [2, 7, 5] none) 7).1
      (by decide)).2.2.2.2.2⟩

/-- C5. After `reconcile(catalog)` every id of the selection set is the id of a catalog
product, whatever the set and the state were before; in particular a set holding only 7,
reconciled against a catalog without id 7, becomes empty. -/
theorem reconcile_selection_within_catalog (catalog : List Product) (st : State) :
    (∀ id ∈ (reconcile catalog st).selectedProductIds, ∃ p ∈ catalog, p.id = id) ∧
    ((∀ p ∈ catalog, p.id ≠ 7) →
      (reconcile catalog { st with selectedProductIds := [7] }).selectedProductIds = []) := by
  constructor
  · intro id hid
    simp only [reconcile, saveSelectedIds, List.mem_filter, List.any_eq_true, beq_iff_eq] at hid
    exact hid.2
  · intro h
    simp only [reconcile, saveSelectedIds, List.filter_eq_nil_iff, List.mem_singleton,
      List.any_eq_true, beq_iff_eq, not_exists, not_and]
    intro a ha p hp
    subst ha
    exact h p hp

/-- C5 on the specification's scenario: 7 is added, then the page reloads with a catalog
that no longer has product 7. -/
theorem reconcile_selection_within_catalog_witness :
    (add 7 emptyState).localStorage = some "[7]".toList ∧
    loadSelectedIds (some "[7]".toList) = some [7] ∧
    (reconcile [dayCream] (initialState [7] (some "[7]".toList))).selectedProductIds = [] :=
  ⟨by decide, by decide,
   (reconcile_selection_within_catalog [dayCream] (initialState [7] (some "[7]".toList))).2
     (by decide)⟩

/-- C6, counterexample. The set in memory is `[7]` while storage holds `[]` (another
tab emptied it); a click on the card of product 7 completes without a write, so storage
still does not hold the encoding of the set. -/
theorem add_of_selected_id_does_not_write :
    (add 7 (initialState [7] (some "[]".toList))).selectedProductIds = [7] ∧
    (add 7 (initialState [7] (some "[]".toList))).localStorage = some "[]".toList ∧
    (add 7 (initialState [7] (some "[]".toList))).localStorage ≠
      some (JSON_stringify (add 7 (initialState [7] (some "[]".toList))).selectedProductIds) := by
  decide

/-- C6, amended. From any prior state, storage holds the JSON encoding of the in-memory
selection set after `reconcile`, after `remove` of a nonzero id, and after `add` of a
nonzero id that was not selected; every `add` and `remove`, the ones that write nothing
included, keeps the two consistent when they were consistent before. -/
theorem store_operations_write_through (st : State) :
    (∀ catalog, Consistent (reconcile catalog st)) ∧
    (∀ id, id ≠ 0 → Consistent (remove id st)) ∧
    (∀ id, id ≠ 0 → id ∉ st.selectedProductIds → Consistent (add id st)) ∧
    (Consistent st → ∀ id, Consistent (add id st) ∧ Consistent (remove id st)) := by
  refine ⟨fun catalog => rfl, fun id hid => ?_, fun id hid hmem => ?_, fun hst id => ?_⟩
  · rw [remove_of_ne_zero st id hid]; rfl
  · rw [add_of_not_mem st id hmem hid]; rfl
  · by_cases hid : id = 0
    · subst hid
      exact ⟨hst, hst⟩
    · refine ⟨?_, by rw [remove_of_ne_zero st id hid]; rfl⟩
      by_cases hmem : id ∈ st.selectedProductIds
      · rw [add_of_mem st id hmem hid]; exact hst
      · rw [add_of_not_mem st id hmem hid]; rfl

/-- C6 at concrete inputs, from the inconsistent state of the counterexample. -/
theorem store_operations_write_through_witness :
    Consistent (reconcile sampleCatalog (initialState [7] (some "[]".toList))) ∧
    Consistent (remove 7 (initialState [7] (some "[]".toList))) ∧
    Consistent (add 2 (initialState [7] (some "[]".toList))) ∧
    Consistent (add 7 (initialState [7] (some "[7]".toList))) :=
  ⟨(store_operations_write_through (initialState [7] (some "[]".toList))).1 sampleCatalog,
   (store_operations_write_through (initialState [7] (some "[]".toList))).2.1 7 (by decide),
   (store_operations_write_through (initialState [7] (some "[]".toList))).2.2.1 2 (by decide)
     (by decide),
   ((store_operations_write_through (initialState [7] (some "[7]".toList))).2.2.2 rfl 7).1⟩

/-- C7. For every catalog and every state whose selected ids all occur in the catalog,
saving the selection set and then loading the page against the stored value and the same
catalog (parse at start-up, then reconcile) succeeds and yields the identical ordered
sequence of ids. -/
theorem save_then_reload_roundtrip (catalog : List Product) (st : State)
    (hin : ∀ id ∈ st.selectedProductIds, ∃ p ∈ catalog, p.id = id) :
    (reload (saveSelectedIds st).localStorage catalog).map State.selectedProductIds
      = some st.selectedProductIds := by
  simp only [reload, startup, loadSelectedIds_saved, Option.map_some', Option.some.injEq]
  simp only [reconcile, saveSelectedIds, initialState, List.filter_eq_self, List.any_eq_true,
    beq_iff_eq]
  exact hin

/-- C7 at a concrete input: the set `[2, 7]` against the two-product catalog. -/
theorem save_then_reload_roundtrip_witness :
    (saveSelectedIds (initialState [2, 7] none)).localStorage = some "[2,7]".toList ∧
    (reload (some "[2,7]".toList) sampleCatalog).map State.selectedProductIds = some [2, 7] :=
  ⟨by decide, save_then_reload_roundtrip sampleCatalog (initialState [2, 7] none) (by decide)⟩

/-! ## Conversation log: lemmas -/

theorem setStatusAt_length_append (nodes : List ChatNode) (role : Role) (text : JSVal)
    (status statusText : JSString) (rest : List ChatNode) :
    setStatusAt nodes.length statusText (nodes ++ .msg role text status :: rest)
      = nodes ++ .msg role text statusText :: rest := by
  induction nodes with
  | nil => rfl
  | cons n ns ih => exact congrArg (n :: ·) ih

theorem setLoadingTextAt_length_append (nodes : List ChatNode) (old text : JSString)
    (rest : List ChatNode) :
    setLoadingTextAt nodes.length text (nodes ++ .loading old :: rest)
      = nodes ++ .loading text :: rest := by
  induction nodes with
  | nil => rfl
  | cons n ns ih => exact congrArg (n :: ·) ih

/-- The chat handler on a failed proxy call. -/
theorem chatSubmit_of_error (inputValue : JSString) (outcome : FetchOutcome) (st : State)
    (err : ProxyError) (htext : trim inputValue ≠ [])
    (hfail : callWorkerProxy outcome = .error err) :
    chatSubmit inputValue outcome st =
      { st with
        messages := st.messages ++ [{ role := .user, content := .str (trim inputValue) }]
        chatWindow := st.chatWindow ++
          [.msg .user (.str (trim inputValue)) "Failed".toList,
           .loading "Sorry — I couldn't reach the assistant. Try again later.".toList] } := by
  have ht : truthy (trim inputValue) = true := (truthy_iff _).2 htext
  unfold chatSubmit
  simp only [ht, Bool.not_true, Bool.false_eq_true, if_false, hfail, appendMessage,
    updateMessageStatus, if_true]
  rw [setLoadingTextAt_length_append, List.append_assoc, List.singleton_append,
    setStatusAt_length_append]

/-- The worker call on a non-success HTTP status. -/
theorem callWorkerProxy_not_ok (status : Nat) (bodyText : JSString) (json : Option JSVal) :
    callWorkerProxy (.response false status bodyText json) = .error (.worker status bodyText) :=
  rfl

/-! ## Conversation log: the claims -/

/-- C8, the code at the failing input. For the success body
`{"choices":[{"message":{"role":"assistant","content":null}}]}`, which has neither the
expected nor the fallback shape, `callWorkerProxy` resolves, to `null`, instead of
rejecting, and for `{"choices":[{"message":{}}]}` it resolves to `undefined`; the body
`{"choices":[{"message":{"content":"hi"}}]}` yields its reply and `{}` is rejected. -/
theorem callWorkerProxy_resolves_without_reply :
    callWorkerProxy (.response true 200 []
        (some (.obj [("choices".toList,
          .arr [.obj [("message".toList,
            .obj [("role".toList, .str "assistant".toList), ("content".toList, .null)])]])])))
      = .ok .null ∧
    callWorkerProxy (.response true 200 []
        (some (.obj [("choices".toList, .arr [.obj [("message".toList, .obj [])]])])))
      = .ok .undefined ∧
    callWorkerProxy (.response true 200 []
        (some (.obj [("choices".toList,
          .arr [.obj [("message".toList, .obj [("content".toList, .str "hi".toList)])]])])))
      = .ok (.str "hi".toList) ∧
    callWorkerProxy (.response true 200 [] (some (.obj []))) = .error .unexpectedShape :=
  ⟨rfl, rfl, rfl, rfl⟩

/-- C9. For every state and every chat text that is not blank, when the proxy call
fails, the chat submit handler completes with the conversation log equal to the previous
log followed by exactly the one user message (the trimmed text): no assistant message is
appended to the log, and the chat window gains the user bubble with status `Failed` and
the failure notice, and no assistant bubble. -/
theorem chatSubmit_failure_keeps_user_message (inputValue : JSString) (outcome : FetchOutcome)
    (st : State) (err : ProxyError) (htext : trim inputValue ≠ [])
    (hfail : callWorkerProxy outcome = .error err) :
    (chatSubmit inputValue outcome st).messages
      = st.messages ++ [{ role := .user, content := .str (trim inputValue) }] ∧
    (chatSubmit inputValue outcome st).chatWindow
      = st.chatWindow ++
          [.msg .user (.str (trim inputValue)) "Failed".toList,
           .loading "Sorry — I couldn't reach the assistant. Try again later.".toList] := by
  rw [chatSubmit_of_error inputValue outcome st err htext hfail]
  exact ⟨rfl, rfl⟩

/-- C9 on the specification's scenario: the endpoint answers HTTP 500 `server error`. -/
theorem chatSubmit_failure_keeps_user_message_witness :
    (chatSubmit " hello ".toList (.response false 500 "server error".toList none)
        emptyState).messages
      = emptyState.messages ++ [{ role := .user, content := .str "hello".toList }] ∧
    (chatSubmit " hello ".toList (.response false 500 "server error".toList none)
        emptyState).chatWindow
      = [.msg .user (.str "hello".toList) "Failed".toList,
         .loading "Sorry — I couldn't reach the assistant. Try again later.".toList] :=
  chatSubmit_failure_keeps_user_message " hello ".toList
    (.response false 500 "server error".toList none) emptyState
    (.worker 500 "server error".toList) (by decide) rfl

/-! ## Generate Routine: lemmas -/

theorem infix_intercalate_of_mem (sep l : JSString) :
    ∀ ls : List JSString, l ∈ ls → l <:+: sep.intercalate ls := by
  intro ls
  induction ls with
  | nil => intro h; simp at h
  | cons x tl ih =>
    intro h
    cases tl with
    | nil =>
      have hx : l = x := by simpa using h
      subst hx
      simp [List.intercalate]
    | cons y tl =>
      rw [intercalate_cons_cons]
      rcases List.mem_cons.mp h with h | h
      · subst h
        exact List.infix_append' [] _ _
      · exact (ih h).trans ((List.suffix_append _ _).isInfix.trans (List.suffix_append _ _).isInfix)

theorem productSummary_fields (i : Nat) (p : Product) :
    p.brand <:+: productSummary i p ∧ p.name <:+: productSummary i p ∧
    p.category <:+: productSummary i p ∧ p.description <:+: productSummary i p := by
  refine ⟨?_, ?_, ?_, ?_⟩
  · exact ⟨natToDecimal (i + 1) ++ ". ".toList,
      " — ".toList ++ p.name ++ " (".toList ++ p.category ++ ")\n   ".toList ++
        (if truthy p.description then p.description else []), by
      simp [productSummary, List.append_assoc]⟩
  · exact ⟨natToDecimal (i + 1) ++ ". ".toList ++ p.brand ++ " — ".toList,
      " (".toList ++ p.category ++ ")\n   ".toList ++
        (if truthy p.description then p.description else []), by
      simp [productSummary, List.append_assoc]⟩
  · exact ⟨natToDecimal (i + 1) ++ ". ".toList ++ p.brand ++ " — ".toList ++ p.name ++
        " (".toList,
      ")\n   ".toList ++ (if truthy p.description then p.description else []), by
      simp [productSummary, List.append_assoc]⟩
  · have hd : (if truthy p.description then p.description else []) = p.description := by
      cases h : p.description <;> simp [truthy]
    exact ⟨natToDecimal (i + 1) ++ ". ".toList ++ p.brand ++ " — ".toList ++ p.name ++
        " (".toList ++ p.category ++ ")\n   ".toList, [], by
      simp [productSummary, List.append_assoc, hd]⟩

/-- The log after the Generate Routine listener: the previous log, the prompt chosen by
whether a selected catalog product was found, then what the proxy call adds. -/
theorem generateRoutineClick_messages (outcome : FetchOutcome) (st : State) :
    (generateRoutineClick outcome st).messages =
      st.messages ++
        { role := .user,
          content := .str (if (selectedProducts st).isEmpty then clarifyingPrompt
                           else routinePrompt (selectedProducts st)) } ::
        replyMessages outcome := by
  unfold generateRoutineClick replyMessages
  cases hsel : (selectedProducts st).isEmpty <;> cases hcall : callWorkerProxy outcome <;>
    simp [appendMessage, hsel]

/-! ## Generate Routine: what the listener appends -/

/-- The products the listener works on are exactly the catalog products whose id is in
the selection set, in catalog order. -/
theorem selectedProducts_characterised (st : State) :
    selectedProducts st
      = st.allProducts.filter (fun p => decide (p.id ∈ st.selectedProductIds)) ∧
    (∀ p, p ∈ selectedProducts st ↔ p ∈ st.allProducts ∧ p.id ∈ st.selectedProductIds) ∧
    (selectedProducts st).Sublist st.allProducts := by
  refine ⟨rfl, fun p => ?_, List.filter_sublist _⟩
  simp [selectedProducts, List.mem_filter]

/-- The routine prompt carries the summary of the product at every position, numbered
by that position. -/
theorem routinePrompt_numbers_by_position (products : List Product) (i : Nat)
    (hi : i < products.length) :
    productSummary i (products.get ⟨i, hi⟩) <:+: routinePrompt products := by
  have hmem : productSummary i (products.get ⟨i, hi⟩) ∈ products.mapIdx productSummary := by
    rw [List.mem_mapIdx]
    exact ⟨i, hi, rfl⟩
  exact (infix_intercalate_of_mem _ _ _ hmem).trans (List.suffix_append _ _).isInfix

/-- For every state, the Generate Routine listener appends to the log (before whatever
the proxy call adds) the clarifying prompt when the catalog filtered by the selection
set is empty, and otherwise the templated prompt over that filtered catalog: it lists
exactly the catalog products whose id is selected, in catalog order, the product at
position `i` under the number `i + 1` with its brand, name, category and description. -/
theorem generateRoutine_prompt_by_selected_products (outcome : FetchOutcome) (st : State) :
    (generateRoutineClick outcome st).messages =
      st.messages ++
        { role := .user,
          content := .str
            (if (st.allProducts.filter
                  (fun p => decide (p.id ∈ st.selectedProductIds))).isEmpty then
               clarifyingPrompt
             else
               routinePrompt
                 (st.allProducts.filter (fun p => decide (p.id ∈ st.selectedProductIds)))) } ::
        replyMessages outcome ∧
    (st.selectedProductIds = [] →
      st.allProducts.filter (fun p => decide (p.id ∈ st.selectedProductIds)) = []) ∧
    (∀ products : List Product, ∀ i, ∀ hi : i < products.length,
      productSummary i (products.get ⟨i, hi⟩) <:+: routinePrompt products ∧
      (products.get ⟨i, hi⟩).brand <:+: productSummary i (products.get ⟨i, hi⟩) ∧
      (products.get ⟨i, hi⟩).name <:+: productSummary i (products.get ⟨i, hi⟩) ∧
      (products.get ⟨i, hi⟩).category <:+: productSummary i (products.get ⟨i, hi⟩) ∧
      (products.get ⟨i, hi⟩).description <:+: productSummary i (products.get ⟨i, hi⟩)) := by
  refine ⟨generateRoutineClick_messages outcome st, fun h => by simp [h], ?_⟩
  intro products i hi
  exact ⟨routinePrompt_numbers_by_position products i hi, productSummary_fields i _⟩

/-! ## Generate Routine: the claim -/

/-- C10, the code at the failing input. Right after start-up with the stored selection
`[7]` the catalog is still empty; Generate Routine then appends the clarifying-question
prompt (`I haven't selected any products yet`), not the templated prompt for product 7,
although the selection set is not empty. Once the two-product catalog is loaded, the
selection `[2, 7]` gets the templated prompt listing product 7 and then product 2, the
catalog order, the selection `[2]` the one listing product 2 only, and the empty
selection the clarifying prompt. -/
theorem generateRoutine_clarifies_despite_selection :
    startup (some "[7]".toList) = some (initialState [7] (some "[7]".toList)) ∧
    (initialState [7] (some "[7]".toList)).selectedProductIds ≠ [] ∧
    (generateRoutineClick .networkError (initialState [7] (some "[7]".toList))).messages
      = (initialState [7] (some "[7]".toList)).messages ++
          [{ role := .user, content := .str clarifyingPrompt }] ∧
    clarifyingPrompt ≠ routinePrompt [hydraSerum] ∧
    (generateRoutineClick .networkError
        (reconcile sampleCatalog (initialState [2, 7] none))).messages
      = (initialState [2, 7] none).messages ++
          [{ role := .user, content := .str (routinePrompt [hydraSerum, dayCream]) }] ∧
    routinePrompt [hydraSerum, dayCream]
      = routinePromptHead ++
          "1. X — Hydra Serum (serum)\n   A light hydrating serum.\n\n2. Y — Day Cream (moisturizer)\n   ".toList ∧
    (generateRoutineClick .networkError
        (reconcile sampleCatalog (initialState [2] none))).messages
      = (initialState [2] none).messages ++
          [{ role := .user, content := .str (routinePrompt [dayCream]) }] ∧
    (generateRoutineClick .networkError
        (reconcile sampleCatalog (initialState [] none))).messages
      = (initialState [] none).messages ++
          [{ role := .user, content := .str clarifyingPrompt }] :=
  ⟨rfl, by decide, rfl, by decide, rfl, rfl, rfl, rfl⟩

end RoutineBuilder
